import Mathlib

/-
Verification of the PhaseNet picker (seisbench/models/phasenet.py).

The development shallowly embeds the source:
* shape semantics of `Conv1dSame` and of `PhaseNet.forward` over `ℤ`
  (PyTorch `Conv1d` / `ConvTranspose1d` output-length rules),
* value semantics of the full forward pass over `ℝ`,
* `annotate_window_pre` / `annotate_window_post` over `ℝ`,
* `classify_aggregate` over `ℚ` timestamps and `String` identifiers, with
  the external obspy `trigger_onset` primitive kept abstract (a parameter).
-/

namespace Seisbench

/-! ### Shape-level embedding of Conv1dSame and the PhaseNet layer stack -/

/-- Embeds `self.padding = math.ceil((1 - stride + dilation * (kernel_size - 1)) / 2)`
from `Conv1dSame.__init__`.  For an integer `x`, `math.ceil(x / 2) = (x + 1).fdiv 2`. -/
def Conv1dSame.padding (kernel_size stride dilation : ℤ) : ℤ :=
  (1 - stride + dilation * (kernel_size - 1) + 1).fdiv 2

/-- Embeds `self.cut_last_element = (kernel_size % 2 == 0 and stride == 1 and dilation % 2 == 1)`
from `Conv1dSame.__init__`. -/
def Conv1dSame.cut_last_element (kernel_size stride dilation : ℤ) : Bool :=
  kernel_size % 2 == 0 && stride == 1 && dilation % 2 == 1

/-- Output time length of `torch.nn.Conv1d` (PyTorch shape rule):
`floor((L + 2 * padding - dilation * (kernel_size - 1) - 1) / stride) + 1`. -/
def conv1dOutLen (L padding kernel_size stride dilation : ℤ) : ℤ :=
  (L + 2 * padding - dilation * (kernel_size - 1) - 1).fdiv stride + 1

/-- Output time length of `torch.nn.ConvTranspose1d` (PyTorch shape rule). -/
def convTranspose1dOutLen (L padding kernel_size stride dilation output_padding : ℤ) : ℤ :=
  (L - 1) * stride - 2 * padding + dilation * (kernel_size - 1) + output_padding + 1

/-- Output time length of `Conv1dSame.forward`: the wrapped convolution is built with
`padding = self.padding + 1` (line 30), and the result drops its last time step
exactly when `self.cut_last_element` is set (lines 36-37). -/
def Conv1dSame.outLen (kernel_size stride dilation L : ℤ) : ℤ :=
  if Conv1dSame.cut_last_element kernel_size stride dilation then
    conv1dOutLen L (Conv1dSame.padding kernel_size stride dilation + 1)
      kernel_size stride dilation - 1
  else
    conv1dOutLen L (Conv1dSame.padding kernel_size stride dilation + 1)
      kernel_size stride dilation

/-- Shape of a tensor in the layer stack: (channel count, time length). -/
abbrev Shape : Type := ℤ × ℤ

/-- Shape semantics of `nn.Conv1d`: the input channel count must match, and the
produced length must be positive (PyTorch raises otherwise). -/
def conv1dShape (in_channels out_channels kernel_size stride padding : ℤ)
    (s : Shape) : Option Shape :=
  if s.1 = in_channels ∧ 1 ≤ conv1dOutLen s.2 padding kernel_size stride 1 then
    some (out_channels, conv1dOutLen s.2 padding kernel_size stride 1)
  else
    none

/-- Shape semantics of `Conv1dSame` (used with its default `dilation = 1`). -/
def conv1dSameShape (in_channels out_channels kernel_size stride : ℤ)
    (s : Shape) : Option Shape :=
  if s.1 = in_channels ∧ 1 ≤ Conv1dSame.outLen kernel_size stride 1 s.2 then
    some (out_channels, Conv1dSame.outLen kernel_size stride 1 s.2)
  else
    none

/-- Shape semantics of `nn.ConvTranspose1d` (dilation is left at its default 1). -/
def convTranspose1dShape (in_channels out_channels kernel_size stride padding output_padding : ℤ)
    (s : Shape) : Option Shape :=
  if s.1 = in_channels ∧ 1 ≤ convTranspose1dOutLen s.2 padding kernel_size stride 1 output_padding
  then
    some (out_channels, convTranspose1dOutLen s.2 padding kernel_size stride 1 output_padding)
  else
    none

/-- Shape semantics of `nn.BatchNorm1d(c)`: channel count must match; shape unchanged. -/
def batchNorm1dShape (channels : ℤ) (s : Shape) : Option Shape :=
  if s.1 = channels then some s else none

/-- Shape semantics of `torch.cat(_, dim=1)`: time lengths must agree; channels add. -/
def catShape (a b : Shape) : Option Shape :=
  if a.2 = b.2 then some (a.1 + b.1, a.2) else none

/-- Shape semantics of `PhaseNet.forward` (lines 108-124), threading the layers in
source order with the constructor's parameters: `in_channels = 3`, `classes = 3`,
`kernel_size = 7`, `stride = 4`.  Decoder paddings are `self.conv4.padding`,
`self.conv3.padding`, `self.conv2.padding` (all equal to `Conv1dSame.padding 7 4 1`)
and the literal 3 for `up4`; `up2` has `output_padding = 1`.  `torch.relu` and
`Softmax(dim=1)` are elementwise along existing axes and do not change the shape. -/
def PhaseNet.forwardShape (s : Shape) : Option Shape :=
  match conv1dShape 3 8 1 1 0 s with
  | none => none
  | some xin =>
  match batchNorm1dShape 8 xin with
  | none => none
  | some xin =>
  match conv1dSameShape 8 11 7 4 xin with
  | none => none
  | some x1 =>
  match batchNorm1dShape 11 x1 with
  | none => none
  | some x1 =>
  match conv1dSameShape 11 16 7 4 x1 with
  | none => none
  | some x2 =>
  match batchNorm1dShape 16 x2 with
  | none => none
  | some x2 =>
  match conv1dSameShape 16 22 7 4 x2 with
  | none => none
  | some x3 =>
  match batchNorm1dShape 22 x3 with
  | none => none
  | some x3 =>
  match conv1dSameShape 22 32 7 4 x3 with
  | none => none
  | some x4 =>
  match batchNorm1dShape 32 x4 with
  | none => none
  | some x4 =>
  match convTranspose1dShape 32 22 7 4 (Conv1dSame.padding 7 4 1) 0 x4 with
  | none => none
  | some u1 =>
  match batchNorm1dShape 22 u1 with
  | none => none
  | some u1 =>
  match catShape u1 x3 with
  | none => none
  | some c1 =>
  match convTranspose1dShape 44 16 7 4 (Conv1dSame.padding 7 4 1) 1 c1 with
  | none => none
  | some u2 =>
  match batchNorm1dShape 16 u2 with
  | none => none
  | some u2 =>
  match catShape u2 x2 with
  | none => none
  | some c2 =>
  match convTranspose1dShape 32 11 7 4 (Conv1dSame.padding 7 4 1) 0 c2 with
  | none => none
  | some u3 =>
  match batchNorm1dShape 11 u3 with
  | none => none
  | some u3 =>
  match catShape u3 x1 with
  | none => none
  | some c3 =>
  match convTranspose1dShape 22 8 7 4 3 0 c3 with
  | none => none
  | some u4 =>
  match batchNorm1dShape 8 u4 with
  | none => none
  | some u4 =>
  match catShape u4 xin with
  | none => none
  | some c4 => convTranspose1dShape 16 3 1 1 0 0 c4

/-! ### Value-level embedding of the forward pass over `ℝ`

Network weights (learned parameters) are free parameters of the embedding.
Lengths are tracked in the types; the `ℕ`-valued length formulas below agree
with the `ℤ`-valued ones on all valid (nonnegative) instances. -/

/-- A single window's tensor: channels × time samples of real values. -/
def Tensor (channels time : ℕ) : Type := Fin channels → Fin time → ℝ

/-- Output time length of `nn.Conv1d` as a `ℕ` formula (truncated subtraction
agrees with the PyTorch rule whenever the convolution is accepted). -/
def conv1dOutLenNat (L padding kernel_size stride dilation : ℕ) : ℕ :=
  (L + 2 * padding - dilation * (kernel_size - 1) - 1) / stride + 1

/-- Output time length of `nn.ConvTranspose1d` as a `ℕ` formula. -/
def convTranspose1dOutLenNat (L padding kernel_size stride dilation output_padding : ℕ) : ℕ :=
  (L - 1) * stride + dilation * (kernel_size - 1) + output_padding + 1 - 2 * padding

/-- Value semantics of `nn.Conv1d` on one window, weight layout
(out-channel, in-channel, tap): cross-correlation over the zero-padded input. -/
noncomputable def conv1dVal {ci co k L : ℕ} (padding stride dilation : ℕ)
    (w : Fin co → Fin ci → Fin k → ℝ) (b : Fin co → ℝ) (x : Tensor ci L) :
    Tensor co (conv1dOutLenNat L padding k stride dilation) :=
  fun o t => b o + ∑ i, ∑ j : Fin k,
    w o i j *
      (if h : padding ≤ t.val * stride + j.val * dilation ∧
              t.val * stride + j.val * dilation - padding < L
       then x i ⟨t.val * stride + j.val * dilation - padding, h.2⟩ else 0)

/-- Value semantics of `nn.ConvTranspose1d` on one window, weight layout
(in-channel, out-channel, tap): output position `t` accumulates every
contribution `s * stride + j * dilation = t + padding` of the input. -/
noncomputable def convTranspose1dVal {ci co k L : ℕ} (padding stride dilation output_padding : ℕ)
    (w : Fin ci → Fin co → Fin k → ℝ) (b : Fin co → ℝ) (x : Tensor ci L) :
    Tensor co (convTranspose1dOutLenNat L padding k stride dilation output_padding) :=
  fun o t => b o + ∑ i, ∑ s : Fin L, ∑ j : Fin k,
    if s.val * stride + j.val * dilation = t.val + padding then w i o j * x i s else 0

/-- Inference-time parameters of `nn.BatchNorm1d(c)` (statistics frozen). -/
structure BNParams (c : ℕ) where
  weight : Fin c → ℝ
  bias : Fin c → ℝ
  running_mean : Fin c → ℝ
  running_var : Fin c → ℝ
  eps : ℝ

/-- Value semantics of `nn.BatchNorm1d` in evaluation mode. -/
noncomputable def batchNorm1dVal {c L : ℕ} (p : BNParams c) (x : Tensor c L) : Tensor c L :=
  fun ch t =>
    (x ch t - p.running_mean ch) / Real.sqrt (p.running_var ch + p.eps) * p.weight ch + p.bias ch

/-- Value semantics of `torch.relu`, elementwise. -/
noncomputable def reluVal {c L : ℕ} (x : Tensor c L) : Tensor c L :=
  fun ch t => max (x ch t) 0

/-- Value semantics of `torch.nn.Softmax(dim=1)`: for each time index, a
normalized exponential along the class axis (line 106/122). -/
noncomputable def softmaxVal {c L : ℕ} (x : Tensor c L) : Tensor c L :=
  fun ch t => Real.exp (x ch t) / ∑ ch' : Fin c, Real.exp (x ch' t)

/-- Value semantics of `torch.cat(_, dim=1)`: channel-wise concatenation. -/
def catVal {c1 c2 L : ℕ} (x : Tensor c1 L) (y : Tensor c2 L) : Tensor (c1 + c2) L :=
  fun ch t =>
    if h : ch.val < c1 then x ⟨ch.val, h⟩ t
    else y ⟨ch.val - c1, by have := ch.isLt; omega⟩ t

/-- The `ℕ` counterpart of `Conv1dSame.padding _ _ _ + 1`, the padding actually
passed to the wrapped `nn.Conv1d` (line 30). -/
def Conv1dSame.paddingNat (kernel_size stride dilation : ℕ) : ℕ :=
  (Conv1dSame.padding kernel_size stride dilation + 1).toNat

/-- Output time length of `Conv1dSame.forward` as a `ℕ` formula. -/
def Conv1dSame.outLenNat (kernel_size stride dilation L : ℕ) : ℕ :=
  if Conv1dSame.cut_last_element kernel_size stride dilation then
    conv1dOutLenNat L (Conv1dSame.paddingNat kernel_size stride dilation)
      kernel_size stride dilation - 1
  else
    conv1dOutLenNat L (Conv1dSame.paddingNat kernel_size stride dilation)
      kernel_size stride dilation

theorem Conv1dSame.outLenNat_le (kernel_size stride dilation L : ℕ) :
    Conv1dSame.outLenNat kernel_size stride dilation L ≤
      conv1dOutLenNat L (Conv1dSame.paddingNat kernel_size stride dilation)
        kernel_size stride dilation := by
  unfold Conv1dSame.outLenNat
  split <;> omega

/-- Value semantics of `Conv1dSame.forward` (lines 35-39): the wrapped
convolution with `self.padding + 1` zero padding, dropping the final time step
exactly when `cut_last_element` was set at construction (`x[:, :, :-1]`). -/
noncomputable def Conv1dSame.forwardVal {ci co L : ℕ} (k s d : ℕ)
    (w : Fin co → Fin ci → Fin k → ℝ) (b : Fin co → ℝ) (x : Tensor ci L) :
    Tensor co (Conv1dSame.outLenNat k s d L) :=
  fun o t =>
    conv1dVal (Conv1dSame.paddingNat k s d) s d w b x o
      ⟨t.val, Nat.lt_of_lt_of_le t.isLt (Conv1dSame.outLenNat_le k s d L)⟩

/-- Learned parameters of the `PhaseNet` instance constructed with the default
`in_channels = 3`, `classes = 3` (lines 67-106); weight shapes follow the
PyTorch modules instantiated there. -/
structure PhaseNetParams where
  inc_weight : Fin 8 → Fin 3 → Fin 1 → ℝ
  inc_bias : Fin 8 → ℝ
  in_bn : BNParams 8
  conv1_weight : Fin 11 → Fin 8 → Fin 7 → ℝ
  conv1_bias : Fin 11 → ℝ
  bnd1 : BNParams 11
  conv2_weight : Fin 16 → Fin 11 → Fin 7 → ℝ
  conv2_bias : Fin 16 → ℝ
  bnd2 : BNParams 16
  conv3_weight : Fin 22 → Fin 16 → Fin 7 → ℝ
  conv3_bias : Fin 22 → ℝ
  bnd3 : BNParams 22
  conv4_weight : Fin 32 → Fin 22 → Fin 7 → ℝ
  conv4_bias : Fin 32 → ℝ
  bnd4 : BNParams 32
  up1_weight : Fin 32 → Fin 22 → Fin 7 → ℝ
  up1_bias : Fin 22 → ℝ
  bnu1 : BNParams 22
  up2_weight : Fin 44 → Fin 16 → Fin 7 → ℝ
  up2_bias : Fin 16 → ℝ
  bnu2 : BNParams 16
  up3_weight : Fin 32 → Fin 11 → Fin 7 → ℝ
  up3_bias : Fin 11 → ℝ
  bnu3 : BNParams 11
  up4_weight : Fin 22 → Fin 8 → Fin 7 → ℝ
  up4_bias : Fin 8 → ℝ
  bnu4 : BNParams 8
  out_weight : Fin 16 → Fin 3 → Fin 1 → ℝ
  out_bias : Fin 3 → ℝ

/-- Line 109: `x_in = self.activation(self.in_bn(self.inc(x)))`. -/
noncomputable def PhaseNet.xIn (p : PhaseNetParams) (x : Tensor 3 3001) : Tensor 8 3001 :=
  reluVal (batchNorm1dVal p.in_bn (conv1dVal 0 1 1 p.inc_weight p.inc_bias x))

/-- Line 111: `x1 = self.activation(self.bnd1(self.conv1(x_in)))`. -/
noncomputable def PhaseNet.x1 (p : PhaseNetParams) (x : Tensor 3 3001) : Tensor 11 751 :=
  reluVal (batchNorm1dVal p.bnd1 (Conv1dSame.forwardVal 7 4 1 p.conv1_weight p.conv1_bias
    (PhaseNet.xIn p x)))

/-- Line 112: `x2 = self.activation(self.bnd2(self.conv2(x1)))`. -/
noncomputable def PhaseNet.x2 (p : PhaseNetParams) (x : Tensor 3 3001) : Tensor 16 188 :=
  reluVal (batchNorm1dVal p.bnd2 (Conv1dSame.forwardVal 7 4 1 p.conv2_weight p.conv2_bias
    (PhaseNet.x1 p x)))

/-- Line 113: `x3 = self.activation(self.bnd3(self.conv3(x2)))`. -/
noncomputable def PhaseNet.x3 (p : PhaseNetParams) (x : Tensor 3 3001) : Tensor 22 47 :=
  reluVal (batchNorm1dVal p.bnd3 (Conv1dSame.forwardVal 7 4 1 p.conv3_weight p.conv3_bias
    (PhaseNet.x2 p x)))

/-- Line 114: `x4 = self.activation(self.bnd4(self.conv4(x3)))`. -/
noncomputable def PhaseNet.x4 (p : PhaseNetParams) (x : Tensor 3 3001) : Tensor 32 12 :=
  reluVal (batchNorm1dVal p.bnd4 (Conv1dSame.forwardVal 7 4 1 p.conv4_weight p.conv4_bias
    (PhaseNet.x3 p x)))

/-- Line 116: `x = torch.cat([self.activation(self.bnu1(self.up1(x4))), x3], dim=1)`,
with `self.up1` using `padding=self.conv4.padding`. -/
noncomputable def PhaseNet.d1 (p : PhaseNetParams) (x : Tensor 3 3001) : Tensor 44 47 :=
  catVal
    (reluVal (batchNorm1dVal p.bnu1
      (convTranspose1dVal (Conv1dSame.padding 7 4 1).toNat 4 1 0 p.up1_weight p.up1_bias
        (PhaseNet.x4 p x))))
    (PhaseNet.x3 p x)

/-- Line 117: `x = torch.cat([self.activation(self.bnu2(self.up2(x))), x2], dim=1)`,
with `self.up2` using `padding=self.conv3.padding` and `output_padding=1`. -/
noncomputable def PhaseNet.d2 (p : PhaseNetParams) (x : Tensor 3 3001) : Tensor 32 188 :=
  catVal
    (reluVal (batchNorm1dVal p.bnu2
      (convTranspose1dVal (Conv1dSame.padding 7 4 1).toNat 4 1 1 p.up2_weight p.up2_bias
        (PhaseNet.d1 p x))))
    (PhaseNet.x2 p x)

/-- Line 118: `x = torch.cat([self.activation(self.bnu3(self.up3(x))), x1], dim=1)`,
with `self.up3` using `padding=self.conv2.padding`. -/
noncomputable def PhaseNet.d3 (p : PhaseNetParams) (x : Tensor 3 3001) : Tensor 22 751 :=
  catVal
    (reluVal (batchNorm1dVal p.bnu3
      (convTranspose1dVal (Conv1dSame.padding 7 4 1).toNat 4 1 0 p.up3_weight p.up3_bias
        (PhaseNet.d2 p x))))
    (PhaseNet.x1 p x)

/-- Line 119: `x = torch.cat([self.activation(self.bnu4(self.up4(x))), x_in], dim=1)`,
with `self.up4` using the literal `padding=3`. -/
noncomputable def PhaseNet.d4 (p : PhaseNetParams) (x : Tensor 3 3001) : Tensor 16 3001 :=
  catVal
    (reluVal (batchNorm1dVal p.bnu4
      (convTranspose1dVal 3 4 1 0 p.up4_weight p.up4_bias (PhaseNet.d3 p x))))
    (PhaseNet.xIn p x)

/-- Line 121: `x = self.out(x)`, the 1 × 1 transposed convolution to 3 classes. -/
noncomputable def PhaseNet.outProj (p : PhaseNetParams) (x : Tensor 3 3001) : Tensor 3 3001 :=
  convTranspose1dVal 0 1 1 0 p.out_weight p.out_bias (PhaseNet.d4 p x)

/-- Lines 108-124: `PhaseNet.forward`, ending in `self.softmax` (dim=1). -/
noncomputable def PhaseNet.forwardVal (p : PhaseNetParams) (x : Tensor 3 3001) :
    Tensor 3 3001 :=
  softmaxVal (PhaseNet.outProj p x)

/-! ### Window pre- and post-processing (lines 126-136) -/

/-- Embeds `np.mean(_, axis=-1)` for one channel (the empty mean is `0/0 = 0`). -/
noncomputable def mean {n : ℕ} (x : Fin n → ℝ) : ℝ := (∑ t, x t) / n

/-- One channel after `window - np.mean(window, axis=-1, keepdims=True)` (line 128). -/
noncomputable def demean {n : ℕ} (x : Fin n → ℝ) : Fin n → ℝ :=
  fun t => x t - mean x

/-- Embeds `np.std(_, axis=-1)` for one channel: the population standard
deviation `sqrt(mean(|x - mean x|^2))`. -/
noncomputable def std {n : ℕ} (x : Fin n → ℝ) : ℝ :=
  Real.sqrt ((∑ t, (x t - mean x) ^ 2) / n)

/-- The divisor after `std[std == 0] = 1` (line 130). -/
noncomputable def safeStd {n : ℕ} (x : Fin n → ℝ) : ℝ :=
  if std x = 0 then 1 else std x

/-- One channel of `PhaseNet.annotate_window_pre` (lines 126-132): demean, then
divide by the channel's standard deviation, with zero replaced by 1. -/
noncomputable def normalize1 {n : ℕ} (x : Fin n → ℝ) : Fin n → ℝ :=
  fun t => demean x t / safeStd (demean x)

/-- Embeds `PhaseNet.annotate_window_pre`: every channel is processed
independently (numpy broadcasting along `axis=-1`); `argdict` is unused. -/
noncomputable def annotate_window_pre {c n : ℕ} (window : Fin c → Fin n → ℝ) :
    Fin c → Fin n → ℝ :=
  fun ch => normalize1 (window ch)

/-- Embeds `PhaseNet.annotate_window_post` (lines 134-136): `pred.T`. -/
def annotate_window_post {a b : ℕ} (pred : Fin a → Fin b → ℝ) : Fin b → Fin a → ℝ :=
  fun i j => pred j i

/-! ### Pick extraction: `classify_aggregate` (lines 138-164)

Timestamps and probabilities are modelled over `ℚ`; identifiers over `String`.
The obspy `trigger_onset` primitive is an external collaborator and is kept
abstract: `classify_aggregate` takes it as a function argument returning the
list of (onset-sample, offset-sample) pairs. -/

/-- Metadata of one annotation trace (the obspy `trace.stats` fields used). -/
structure TraceStats where
  network : String
  station : String
  location : String
  channel : String
  starttime : ℚ

/-- One continuous per-phase probability trace; `times` models the obspy
`trace.times()` array of per-sample relative time offsets. -/
structure Trace where
  stats : TraceStats
  data : List ℚ
  times : List ℚ

/-- A pick triple `(trace_id, pick time, phase)` as produced at line 162. -/
abbrev Pick : Type := String × ℚ × String

/-- Models `annotations.select(channel=...)` (obspy `Stream.select`) for the
exact channel names used at line 156. -/
def select (annotations : List Trace) (channel : String) : List Trace :=
  annotations.filter (fun tr => tr.stats.channel == channel)

/-- Line 155: `pick_threshold = argdict.get(f"[phase]_threshold", 0.3)`. -/
def pick_threshold (argdict : List (String × ℚ)) (phase : String) : ℚ :=
  (argdict.lookup (phase ++ "_threshold")).getD (3 / 10)

/-- Python tuple comparison key for a pick: lexicographic on
(trace id, time, phase), each component by its linear order. -/
def pickKey (p : Pick) : Lex (String × Lex (ℚ × String)) :=
  toLex (p.1, toLex (p.2.1, p.2.2))

/-- Boolean comparison used to model `sorted(picks)` (line 164). -/
def pickLe (p q : Pick) : Bool :=
  decide (pickKey p ≤ pickKey q)

/-- Embeds `PhaseNet.classify_aggregate` (lines 138-164), with the
`trigger_onset` primitive abstract.  Iteration order, the noise skip, the
threshold pair `(pick_threshold, pick_threshold / 2)`, the trace id format,
the pick time `starttime + times[s0]`, and the final `sorted` all follow the
source; `self.labels` is the `phases` string, modelled as a list. -/
def classify_aggregate (trigger_onset : List ℚ → ℚ → ℚ → List (ℕ × ℕ))
    (labels : List String) (annotations : List Trace)
    (argdict : List (String × ℚ)) : List Pick :=
  (labels.flatMap (fun phase =>
    if phase == "N" then []
    else
      (select annotations ("PhaseNet_" ++ phase)).flatMap (fun trace =>
        let trace_id :=
          trace.stats.network ++ "." ++ trace.stats.station ++ "." ++ trace.stats.location
        (trigger_onset trace.data (pick_threshold argdict phase)
            (pick_threshold argdict phase / 2)).map (fun trig =>
          (trace_id, trace.stats.starttime + trace.times.getD trig.1 0, phase))))).mergeSort
    pickLe

/-! ### Claims -/

/-- C1: for an input window of the declared shape (3 channels, 3001 time
samples), the `PhaseNet.forward` layer stack — with the `Conv1dSame` padding
scheme and the paired encoder/decoder strides — type-checks at every layer
(channel counts and skip-concatenation lengths all agree) and returns an
output whose time length equals the input time length, 3001. -/
theorem forwardShape_preserves_reference_length :
    PhaseNet.forwardShape (3, 3001) = some (3, 3001) := by decide

theorem softmaxVal_sum_one {c L : ℕ} (hc : 0 < c) (x : Tensor c L) (t : Fin L) :
    ∑ ch, softmaxVal x ch t = 1 := by
  unfold softmaxVal
  rw [← Finset.sum_div]
  exact div_self (ne_of_gt
    (Finset.sum_pos (fun i _ => Real.exp_pos _) ⟨⟨0, hc⟩, Finset.mem_univ _⟩))

/-- C2: at every time index of `PhaseNet.forward`'s output, the values along
the class axis sum to exactly 1 over real arithmetic, for every choice of
network parameters and every input window: the final `Softmax(dim=1)`
normalizes each column into a categorical distribution. -/
theorem forward_columns_sum_to_one (p : PhaseNetParams) (x : Tensor 3 3001)
    (t : Fin 3001) : ∑ ch, PhaseNet.forwardVal p x ch t = 1 :=
  softmaxVal_sum_one (by norm_num) (PhaseNet.outProj p x) t

/-- C9: `annotate_window_post` is the pure transposition (no numeric change):
entry (i, j) of the output is entry (j, i) of the input, and applying the
transposition twice recovers the original class-major array exactly. -/
theorem post_transpose_roundtrip {a b : ℕ} (pred : Fin a → Fin b → ℝ) :
    annotate_window_post (annotate_window_post pred) = pred ∧
    ∀ i j, annotate_window_post pred i j = pred j i :=
  ⟨rfl, fun _ _ => rfl⟩

/-- C4: `Conv1dSame` trims exactly the last time step of the raw convolution
output precisely when kernel_size is even, stride is 1 and dilation is odd
(the flag computed once at construction); with the flag unset the raw output
length is returned unchanged. -/
theorem cut_last_element_characterization (k s d L : ℤ) :
    (Conv1dSame.cut_last_element k s d = true ↔ (k % 2 = 0 ∧ s = 1 ∧ d % 2 = 1)) ∧
    (Conv1dSame.cut_last_element k s d = true →
      Conv1dSame.outLen k s d L =
        conv1dOutLen L (Conv1dSame.padding k s d + 1) k s d - 1) ∧
    (Conv1dSame.cut_last_element k s d = false →
      Conv1dSame.outLen k s d L =
        conv1dOutLen L (Conv1dSame.padding k s d + 1) k s d) := by
  refine ⟨?_, ?_, ?_⟩
  · simp [Conv1dSame.cut_last_element, and_assoc]
  · intro h; unfold Conv1dSame.outLen; rw [h]; simp
  · intro h; unfold Conv1dSame.outLen; rw [h]; simp

/-- Witness for C4 at the spec's concrete cases: kernel 6 (stride 1,
dilation 1) trims one sample, kernel 7 does not. -/
theorem cut_last_element_characterization_witness :
    Conv1dSame.cut_last_element 6 1 1 = true ∧
    Conv1dSame.cut_last_element 7 1 1 = false ∧
    Conv1dSame.outLen 6 1 1 120 =
      conv1dOutLen 120 (Conv1dSame.padding 6 1 1 + 1) 6 1 1 - 1 ∧
    Conv1dSame.outLen 7 1 1 120 =
      conv1dOutLen 120 (Conv1dSame.padding 7 1 1 + 1) 7 1 1 :=
  ⟨(cut_last_element_characterization 6 1 1 120).1.mpr (by decide),
   by decide,
   (cut_last_element_characterization 6 1 1 120).2.1
     ((cut_last_element_characterization 6 1 1 120).1.mpr (by decide)),
   (cut_last_element_characterization 7 1 1 120).2.2 (by decide)⟩

/-- C3 fails on the code: with kernel 7, dilation 1, stride 1, an input of
length 10 produces an output of length 12, not 10 — the stride-1 "same"
property does not hold for the padding `p + 1` actually used. -/
theorem stride_one_not_same_counterexample :
    Conv1dSame.outLen 7 1 1 10 = 12 ∧ Conv1dSame.outLen 7 1 1 10 ≠ 10 := by decide

/-- C3 amended: for stride 1 and every kernel_size ≥ 1, dilation ≥ 1 and
input length, the output of `Conv1dSame` is exactly two samples longer than
the input (the extra `p + 1` padding adds two surplus samples; the
conditional trim removes only one of the three in the even/odd case). -/
theorem stride_one_adds_two (k d L : ℤ) (hk : 1 ≤ k) (hd : 1 ≤ d) :
    Conv1dSame.outLen k 1 d L = L + 2 := by
  have hm0 : 0 ≤ d * (k - 1) := mul_nonneg (by omega) (by omega)
  by_cases hpar : k % 2 = 0 ∧ d % 2 = 1
  · have hcut : Conv1dSame.cut_last_element k 1 d = true := by
      simp [Conv1dSame.cut_last_element, hpar.1, hpar.2]
    have hodd : d * (k - 1) % 2 = 1 := by
      have h1 : (k - 1) % 2 = 1 := by omega
      rw [Int.mul_emod, hpar.2, h1]; decide
    unfold Conv1dSame.outLen conv1dOutLen Conv1dSame.padding
    rw [hcut]
    simp only [if_true]
    rw [Int.fdiv_one, Int.fdiv_eq_ediv _ (by norm_num)]
    omega
  · have hcut : Conv1dSame.cut_last_element k 1 d = false := by
      unfold Conv1dSame.cut_last_element
      simp only [Bool.and_eq_false_iff, beq_iff_eq, beq_eq_false_iff_ne, ne_eq,
        Bool.and_eq_true]
      omega
    have heven : d * (k - 1) % 2 = 0 := by
      rcases (by omega : k % 2 = 1 ∨ d % 2 = 0) with h | h
      · have h1 : (k - 1) % 2 = 0 := by omega
        rw [Int.mul_emod, h1]; simp
      · rw [Int.mul_emod, h]; simp
    unfold Conv1dSame.outLen conv1dOutLen Conv1dSame.padding
    rw [hcut]
    simp only [Bool.false_eq_true, if_false]
    rw [Int.fdiv_one, Int.fdiv_eq_ediv _ (by norm_num)]
    omega

/-- Witness for the amended C3 at kernel 5, dilation 1, input length 40. -/
theorem stride_one_adds_two_witness : Conv1dSame.outLen 5 1 1 40 = 42 :=
  stride_one_adds_two 5 1 40 (by decide) (by decide)

/-- C5: `classify_aggregate` never emits a pick labelled with the noise
class "N", for every trigger primitive, label set, annotation collection and
threshold configuration. -/
theorem classify_aggregate_no_noise_pick
    (trigger_onset : List ℚ → ℚ → ℚ → List (ℕ × ℕ)) (labels : List String)
    (annotations : List Trace) (argdict : List (String × ℚ)) (p : Pick)
    (hp : p ∈ classify_aggregate trigger_onset labels annotations argdict) :
    p.2.2 ≠ "N" := by
  unfold classify_aggregate at hp
  rw [List.mem_mergeSort] at hp
  simp only [List.mem_flatMap, List.mem_map] at hp
  obtain ⟨phase, hphase, hp⟩ := hp
  by_cases hN : (phase == "N") = true
  · rw [if_pos hN] at hp
    exact absurd hp (List.not_mem_nil _)
  · rw [if_neg hN] at hp
    simp only [List.mem_flatMap, List.mem_map] at hp
    obtain ⟨trace, htrace, trig, htrig, hpe⟩ := hp
    subst hpe
    simpa [beq_iff_eq] using hN

/-- Witness for C5: a single "P"-channel trace with one trigger interval
yields a pick, and that pick's phase differs from "N". -/
theorem classify_aggregate_no_noise_pick_witness :
    (("NN.STA.", (0 : ℚ), "P") : Pick) ∈
      classify_aggregate (fun _ _ _ => [(0, 5)]) ["N", "P", "S"]
        [⟨⟨"NN", "STA", "", "PhaseNet_P", 0⟩, [1, 1], [0, 1]⟩] [] ∧
    (("NN.STA.", (0 : ℚ), "P") : Pick).2.2 ≠ "N" := by
  have hp : (("NN.STA.", (0 : ℚ), "P") : Pick) ∈
      classify_aggregate (fun _ _ _ => [(0, 5)]) ["N", "P", "S"]
        [⟨⟨"NN", "STA", "", "PhaseNet_P", 0⟩, [1, 1], [0, 1]⟩] [] := by
    unfold classify_aggregate
    exact List.mem_mergeSort.mpr (by simp [select, pick_threshold])
  exact ⟨hp, classify_aggregate_no_noise_pick _ _ _ _ _ hp⟩

theorem pickLe_trans (a b c : Pick) (hab : pickLe a b = true)
    (hbc : pickLe b c = true) : pickLe a c = true := by
  simp only [pickLe, decide_eq_true_eq] at *
  exact le_trans hab hbc

theorem pickLe_total (a b : Pick) : (pickLe a b || pickLe b a) = true := by
  simp only [pickLe, Bool.or_eq_true, decide_eq_true_eq]
  exact le_total _ _

/-- C6: the list returned by `classify_aggregate` is sorted (non-decreasing)
in the natural tuple order — trace identity first, then onset time, then
phase label — for every trigger primitive, label order, annotation order and
threshold configuration. -/
theorem classify_aggregate_sorted
    (trigger_onset : List ℚ → ℚ → ℚ → List (ℕ × ℕ)) (labels : List String)
    (annotations : List Trace) (argdict : List (String × ℚ)) :
    List.Sorted (fun p q : Pick => pickKey p ≤ pickKey q)
      (classify_aggregate trigger_onset labels annotations argdict) := by
  unfold classify_aggregate
  exact (List.sorted_mergeSort pickLe_trans pickLe_total _).imp
    (fun h => by simpa [pickLe, decide_eq_true_eq] using h)

/-- C7: the trigger-on threshold for a phase is resolved from the
configuration at key "<phase>_threshold" — the configured value when present,
3/10 when absent, never failing — and `classify_aggregate` invokes the
trigger-onset primitive only at pairs whose trigger-off component is exactly
half the trigger-on component. -/
theorem classify_aggregate_threshold_resolution
    (argdict : List (String × ℚ)) (phase : String) :
    (List.lookup (phase ++ "_threshold") argdict = none →
      pick_threshold argdict phase = 3 / 10 ∧
      pick_threshold argdict phase / 2 = 3 / 20) ∧
    (∀ v, List.lookup (phase ++ "_threshold") argdict = some v →
      pick_threshold argdict phase = v) ∧
    (∀ f g labels annotations,
      (∀ data thr, f data thr (thr / 2) = g data thr (thr / 2)) →
      classify_aggregate f labels annotations argdict =
        classify_aggregate g labels annotations argdict) := by
  refine ⟨?_, ?_, ?_⟩
  · intro h
    unfold pick_threshold
    rw [h]
    norm_num
  · intro v h
    unfold pick_threshold
    rw [h]
    rfl
  · intro f g labels annotations h
    unfold classify_aggregate
    refine congrArg (fun l => List.mergeSort l pickLe) ?_
    refine congrArg (List.flatMap labels) (funext fun phase => ?_)
    by_cases hN : (phase == "N") = true
    · rw [if_pos hN, if_pos hN]
    · rw [if_neg hN, if_neg hN]
      refine congrArg (List.flatMap (select annotations ("PhaseNet_" ++ phase)))
        (funext fun trace => ?_)
      rw [h trace.data (pick_threshold argdict phase)]

/-- Witness for C7: with an empty configuration the "P" pair is (3/10, 3/20),
and two primitives agreeing on half-pairs give identical outputs. -/
theorem classify_aggregate_threshold_resolution_witness :
    (pick_threshold [] "P" = 3 / 10 ∧ pick_threshold [] "P" / 2 = 3 / 20) ∧
    classify_aggregate (fun _ _ _ => [(0, 1)]) ["P"] [] [] =
      classify_aggregate
        (fun _ thr off => if off = thr / 2 then [(0, 1)] else [(5, 6)]) ["P"] [] [] :=
  ⟨(classify_aggregate_threshold_resolution [] "P").1 rfl,
   (classify_aggregate_threshold_resolution [] "P").2.2 _ _ ["P"] []
     (fun _ thr => by simp)⟩

theorem sum_const_fin {n : ℕ} (a : ℝ) : ∑ _t : Fin n, a = n * a := by
  rw [Finset.sum_const, Finset.card_univ, Fintype.card_fin, nsmul_eq_mul]

/-- C8: `annotate_window_pre` divides each demeaned channel by a divisor that
is never zero (1 is substituted whenever the channel's standard deviation is
exactly zero), and a constant-valued channel comes out identically zero.
The output has the input's shape by the type of `annotate_window_pre`. -/
theorem annotate_window_pre_safe (c n : ℕ) (w : Fin c → Fin n → ℝ) :
    (∀ ch, safeStd (demean (w ch)) ≠ 0) ∧
    (∀ ch, (∀ t t', w ch t = w ch t') → ∀ t, annotate_window_pre w ch t = 0) := by
  constructor
  · intro ch
    unfold safeStd
    split
    · exact one_ne_zero
    · assumption
  · intro ch hconst t
    have hn : (n : ℝ) ≠ 0 := by
      have := t.isLt
      exact_mod_cast Nat.pos_of_ne_zero (by omega) |>.ne'
    have hsum : ∑ t', w ch t' = n * w ch t := by
      rw [Finset.sum_congr rfl fun t' _ => hconst t' t, sum_const_fin]
    have hmean : mean (w ch) = w ch t := by
      unfold mean
      rw [hsum, mul_div_cancel_left₀ _ hn]
    have hnum : demean (w ch) t = 0 := by
      show w ch t - mean (w ch) = 0
      rw [hmean, sub_self]
    show demean (w ch) t / safeStd (demean (w ch)) = 0
    rw [hnum, zero_div]

/-- Witness for C8 on a 1-channel, 2-sample constant window of value 5. -/
theorem annotate_window_pre_safe_witness :
    safeStd (demean (fun _ : Fin 2 => (5 : ℝ))) ≠ 0 ∧
    annotate_window_pre (fun _ : Fin 1 => fun _ : Fin 2 => (5 : ℝ)) 0 0 = 0 :=
  ⟨(annotate_window_pre_safe 1 2 (fun _ _ => 5)).1 0,
   (annotate_window_pre_safe 1 2 (fun _ _ => 5)).2 0 (fun _ _ => rfl) 0⟩

theorem sum_demean {n : ℕ} (x : Fin n → ℝ) : ∑ t, demean x t = 0 := by
  rcases Nat.eq_zero_or_pos n with hn | hn
  · subst hn; simp
  · have hcast : (n : ℝ) ≠ 0 := by exact_mod_cast hn.ne'
    unfold demean mean
    rw [Finset.sum_sub_distrib, sum_const_fin, mul_div_cancel₀ _ hcast, sub_self]

theorem mean_demean {n : ℕ} (x : Fin n → ℝ) : mean (demean x) = 0 := by
  unfold mean
  rw [sum_demean, zero_div]

theorem demean_demean {n : ℕ} (x : Fin n → ℝ) : demean (demean x) = demean x := by
  funext t
  show demean x t - mean (demean x) = demean x t
  rw [mean_demean, sub_zero]

theorem std_demean_eq {n : ℕ} (x : Fin n → ℝ) :
    std (demean x) = Real.sqrt ((∑ t, demean x t ^ 2) / n) := by
  unfold std
  rw [mean_demean]
  simp only [sub_zero]

/-- C10: `annotate_window_pre` is idempotent over exact real arithmetic:
after one application every channel has mean 0 and standard deviation 1
(or is identically zero in the degenerate branch), so a second application
changes nothing. -/
theorem annotate_window_pre_idempotent {c n : ℕ} (w : Fin c → Fin n → ℝ) :
    annotate_window_pre (annotate_window_pre w) = annotate_window_pre w := by
  funext ch
  show normalize1 (normalize1 (w ch)) = normalize1 (w ch)
  set x := w ch with hx
  clear hx
  rcases Nat.eq_zero_or_pos n with hn | hn
  · subst hn; funext t; exact t.elim0
  have hcast : (n : ℝ) ≠ 0 := by exact_mod_cast hn.ne'
  by_cases hs : std (demean x) = 0
  · -- degenerate branch: the first pass returns the all-zero channel
    have hz : ∀ t, demean x t = 0 := by
      intro t
      have h1 : Real.sqrt ((∑ t, demean x t ^ 2) / n) = 0 :=
        (std_demean_eq x).symm.trans hs
      have hQnn : 0 ≤ ∑ t, demean x t ^ 2 :=
        Finset.sum_nonneg fun t _ => sq_nonneg _
      have h2 : (∑ t, demean x t ^ 2) / n ≤ 0 := Real.sqrt_eq_zero'.mp h1
      have hQ : ∑ t, demean x t ^ 2 = 0 := by
        have hle : (∑ t, demean x t ^ 2) / n = 0 :=
          le_antisymm h2 (div_nonneg hQnn (by positivity))
        rcases div_eq_zero_iff.mp hle with h | h
        · exact h
        · exact absurd h hcast
      have := (Finset.sum_eq_zero_iff_of_nonneg
        (fun t _ => sq_nonneg (demean x t))).mp hQ t (Finset.mem_univ t)
      exact pow_eq_zero_iff (two_ne_zero) |>.mp this
    have hy : normalize1 x = fun _ => 0 := by
      funext t
      show demean x t / safeStd (demean x) = 0
      rw [hz t, zero_div]
    rw [hy]
    funext t
    show demean (fun _ => (0 : ℝ)) t / safeStd (demean (fun _ : Fin n => (0 : ℝ))) = 0
    have h0 : demean (fun _ : Fin n => (0 : ℝ)) = fun _ => 0 := by
      funext u
      show (0 : ℝ) - mean (fun _ : Fin n => (0 : ℝ)) = 0
      unfold mean
      simp
    rw [h0]
    exact zero_div _
  · -- nondegenerate branch: the normalized channel has mean 0 and std 1
    have hs0 : 0 ≤ std (demean x) := Real.sqrt_nonneg _
    have hspos : 0 < std (demean x) := lt_of_le_of_ne hs0 (Ne.symm hs)
    have hsafe : safeStd (demean x) = std (demean x) := by
      unfold safeStd
      rw [if_neg hs]
    have hy : normalize1 x = fun t => demean x t / std (demean x) := by
      funext t
      show demean x t / safeStd (demean x) = _
      rw [hsafe]
    have hmy : mean (normalize1 x) = 0 := by
      unfold mean
      simp only [hy]
      rw [← Finset.sum_div, sum_demean, zero_div, zero_div]
    have hdy : demean (normalize1 x) = normalize1 x := by
      funext t
      show normalize1 x t - mean (normalize1 x) = normalize1 x t
      rw [hmy, sub_zero]
    have hstdy : std (demean (normalize1 x)) = 1 := by
      rw [hdy]
      unfold std
      rw [hmy]
      simp only [sub_zero, hy, div_pow]
      rw [← Finset.sum_div]
      have harg : (∑ t, demean x t ^ 2) / std (demean x) ^ 2 / n =
          ((∑ t, demean x t ^ 2) / n) / std (demean x) ^ 2 := by
        ring
      rw [harg,
        Real.sqrt_div (by positivity : 0 ≤ (∑ t, demean x t ^ 2) / n) _,
        Real.sqrt_sq hs0, ← std_demean_eq x, div_self hs]
    funext t
    have hsafey : safeStd (demean (normalize1 x)) = 1 := by
      unfold safeStd
      rw [hstdy]
      simp
    show demean (normalize1 x) t / safeStd (demean (normalize1 x)) = normalize1 x t
    rw [hsafey, div_one]
    exact congrFun hdy t

end Seisbench
